import Mathlib

/-!
Verification of the loader layer of `gojsonschema` (`jsonLoader.go`).

The file embeds the Go source shallowly:

* `Value` is the canonical JSON value produced by decoding a document with
  `encoding/json` under `Decoder.UseNumber()`: Go's `interface{}` result is
  one of `nil`, `bool`, `json.Number` (the literal numeric text), `string`,
  `[]interface{}`, or `map[string]interface{}`.  Go's `nil` interface is
  `Value.null` here (JSON `null` decodes to the `nil` interface in Go, and a
  loader that returns no document returns the same `nil`).  Go maps carry no
  key order, so the `obj` field list is a model choice; assignment to an
  existing key replaces its value, as `m[k] = v` does.
* Byte streams are `List Char` (the UTF-8 text of the payload).
* Errors are their Go message strings.

Every definition mirrors the statement structure of the corresponding Go
function; `decodeJSONUsingNumber` models `json.Decoder.Decode` with
`UseNumber()`: it parses one JSON value from the front of the stream.  A
top-level object or array is complete at its closing bracket and trailing
bytes are never examined; after a top-level primitive the decoder reads one
more byte, which must be whitespace (or end of input), else it reports an
error "after top-level value".
-/

namespace Gojsonschema

/-- Canonical JSON value: the shape of `interface{}` decoded by
`encoding/json` with `UseNumber()`.  `num` holds the untouched literal text
of the numeric token (`json.Number`), never a fixed-width float. -/
inductive Value where
  | null : Value
  | bool : Bool → Value
  | num : String → Value
  | str : String → Value
  | arr : List Value → Value
  | obj : List (String × Value) → Value

/-- Go `io.EOF`: `Decoder.Decode` returns it when the stream holds no value. -/
def errEOF : String := "EOF"

/-- Go syntax error for input that ends inside a value. -/
def errUnexpectedEnd : String := "unexpected end of JSON input"

/-- Go syntax error for an invalid byte where a value or token was expected. -/
def errInvalidChar : String := "invalid character"

/-- Go syntax error for a malformed numeric literal. -/
def errInvalidNumber : String := "invalid character in numeric literal"

/-- Go syntax error for a non-whitespace byte after a top-level primitive. -/
def errAfterTop : String := "invalid character after top-level value"

/-- Whitespace accepted between JSON tokens (`isSpace` in Go's scanner). -/
def isWS (c : Char) : Bool :=
  c == ' ' || c == '\t' || c == '\n' || c == '\r'

/-- Drop leading inter-token whitespace. -/
def skipWS : List Char → List Char
  | [] => []
  | c :: cs => if isWS c then skipWS cs else c :: cs

/-- Longest digit prefix of the stream, with the rest. -/
def takeDigits : List Char → List Char × List Char
  | [] => ([], [])
  | c :: cs =>
    if c.isDigit then (c :: (takeDigits cs).1, (takeDigits cs).2)
    else ([], c :: cs)

/-- Integer part of a numeric literal: `0`, or a nonzero digit followed by
digits (Go's scanner states `state1`/`state0`). -/
def scanInt : List Char → Except String (List Char × List Char)
  | [] => .error errUnexpectedEnd
  | c :: rest =>
    if c == '0' then .ok ([c], rest)
    else if c.isDigit then .ok (c :: (takeDigits rest).1, (takeDigits rest).2)
    else .error errInvalidNumber

/-- Optional fraction part: `.` followed by at least one digit. -/
def scanFrac : List Char → Except String (List Char × List Char)
  | [] => .ok ([], [])
  | c :: rest =>
    if c == '.' then
      match rest with
      | [] => .error errUnexpectedEnd
      | d :: r2 =>
        if d.isDigit then .ok (c :: d :: (takeDigits r2).1, (takeDigits r2).2)
        else .error errInvalidNumber
    else .ok ([], c :: rest)

/-- Optional exponent part: `e`/`E`, optional sign, at least one digit. -/
def scanExp : List Char → Except String (List Char × List Char)
  | [] => .ok ([], [])
  | c :: rest =>
    if c == 'e' || c == 'E' then
      match rest with
      | [] => .error errUnexpectedEnd
      | s :: r2 =>
        if s == '+' || s == '-' then
          match r2 with
          | [] => .error errUnexpectedEnd
          | d :: r3 =>
            if d.isDigit then .ok (c :: s :: d :: (takeDigits r3).1, (takeDigits r3).2)
            else .error errInvalidNumber
        else if s.isDigit then .ok (c :: s :: (takeDigits r2).1, (takeDigits r2).2)
        else .error errInvalidNumber
    else .ok ([], c :: rest)

/-- Unsigned numeric literal: integer, fraction, exponent. -/
def scanNumBody (cs : List Char) : Except String (List Char × List Char) :=
  match scanInt cs with
  | .error e => .error e
  | .ok (ip, cs2) =>
    match scanFrac cs2 with
    | .error e => .error e
    | .ok (fp, cs3) =>
      match scanExp cs3 with
      | .error e => .error e
      | .ok (ep, cs4) => .ok (ip ++ fp ++ ep, cs4)

/-- Scan one RFC 8259 numeric literal off the front of the stream, returning
the literal's exact characters and the unconsumed rest.  `UseNumber()` stores
precisely this token as a `json.Number`. -/
def scanNumber : List Char → Except String (List Char × List Char)
  | [] => .error errUnexpectedEnd
  | c :: rest =>
    if c == '-' then
      match scanNumBody rest with
      | .error e => .error e
      | .ok (tok, r) => .ok (c :: tok, r)
    else scanNumBody (c :: rest)

/-- Go syntax error for a bad escape sequence inside a string literal. -/
def errBadEscape : String := "invalid character in string escape code"

/-- Go syntax error for a bad `\u` hexadecimal escape. -/
def errBadHex : String := "invalid character in \\u hexadecimal character escape"

/-- Go syntax error for a raw control character inside a string literal. -/
def errCtlInString : String := "invalid character in string literal"

/-- Value of one hexadecimal digit, as `getu4` reads them: digits, then the
lower-case and upper-case letter ranges by code point. -/
def hexDigitVal (c : Char) : Option Nat :=
  let n := c.toNat
  if n ≥ 0x30 ∧ n ≤ 0x39 then some (n - 0x30)
  else if n ≥ 0x61 ∧ n ≤ 0x66 then some (n - 0x61 + 10)
  else if n ≥ 0x41 ∧ n ≤ 0x46 then some (n - 0x41 + 10)
  else none

/-- Read four hexadecimal digits (the `XXXX` of a `\uXXXX` escape), as Go's
`getu4`. -/
def parseHex4 : List Char → Option (Nat × List Char)
  | a :: b :: c :: d :: rest =>
    match hexDigitVal a, hexDigitVal b, hexDigitVal c, hexDigitVal d with
    | some x, some y, some z, some w => some (((x * 16 + y) * 16 + z) * 16 + w, rest)
    | _, _, _, _ => none
  | _ => none

/-- Is the code point a UTF-16 surrogate half (`utf16.IsSurrogate`)? -/
def isSurrogate (n : Nat) : Bool :=
  0xD800 ≤ n && n < 0xE000

/-- The Unicode replacement character Go substitutes for a lone surrogate. -/
def replacementChar : Char := Char.ofNat 0xFFFD

/-- Body of a JSON string literal, after the opening quote: Go's
`unquoteBytes`.  Handles the single-character escapes, `\uXXXX` escapes with
UTF-16 surrogate-pair combining (a lone or mismatched surrogate becomes
U+FFFD and the following characters are left for the next iteration), rejects
raw control characters, and stops at the closing quote.  `acc` is the decoded
text so far, reversed. -/
def parseStringBody : Nat → List Char → List Char → Except String (String × List Char)
  | 0, _, _ => .error errUnexpectedEnd
  | _ + 1, _, [] => .error errUnexpectedEnd
  | fuel + 1, acc, c :: rest =>
    if c == '"' then .ok (String.mk acc.reverse, rest)
    else if c == '\\' then
      match rest with
      | [] => .error errUnexpectedEnd
      | e :: r2 =>
        if e == '"' then parseStringBody fuel ('"' :: acc) r2
        else if e == '\\' then parseStringBody fuel ('\\' :: acc) r2
        else if e == '/' then parseStringBody fuel ('/' :: acc) r2
        else if e == 'b' then parseStringBody fuel ('\x08' :: acc) r2
        else if e == 'f' then parseStringBody fuel ('\x0c' :: acc) r2
        else if e == 'n' then parseStringBody fuel ('\n' :: acc) r2
        else if e == 'r' then parseStringBody fuel ('\r' :: acc) r2
        else if e == 't' then parseStringBody fuel ('\t' :: acc) r2
        else if e == 'u' then
          match parseHex4 r2 with
          | none => .error errBadHex
          | some (rr, r3) =>
            if isSurrogate rr then
              match r3 with
              | b1 :: b2 :: r4 =>
                if b1 == '\\' && b2 == 'u' then
                  match parseHex4 r4 with
                  | some (rr1, r5) =>
                    if 0xD800 ≤ rr && rr < 0xDC00 && 0xDC00 ≤ rr1 && rr1 < 0xE000 then
                      parseStringBody fuel
                        (Char.ofNat (0x10000 + (rr - 0xD800) * 0x400 + (rr1 - 0xDC00)) :: acc) r5
                    else parseStringBody fuel (replacementChar :: acc) r3
                  | none => parseStringBody fuel (replacementChar :: acc) r3
                else parseStringBody fuel (replacementChar :: acc) r3
              | _ => parseStringBody fuel (replacementChar :: acc) r3
            else parseStringBody fuel (Char.ofNat rr :: acc) r3
        else .error errBadEscape
    else if c.toNat < 0x20 then .error errCtlInString
    else parseStringBody fuel (c :: acc) rest

/-- Match the tail of a keyword literal (`rue`, `alse`, `ull`). -/
def expectLit : List Char → List Char → Except String (List Char)
  | [], cs => .ok cs
  | _ :: _, [] => .error errUnexpectedEnd
  | l :: ls, c :: cs => if c == l then expectLit ls cs else .error errInvalidChar

/-- Go map assignment `m[k] = v` on the modelled field list: replace the
value of an existing key, otherwise add the member. -/
def objInsert : List (String × Value) → String → Value → List (String × Value)
  | [], k, v => [(k, v)]
  | (k', v') :: rest, k, v =>
    if k' == k then (k', v) :: rest else (k', v') :: objInsert rest k v

mutual

/-- Parse one JSON value off the front of the stream (leading whitespace
allowed), returning it and the unconsumed rest.  The fuel only bounds
recursion depth; `decodeJSONUsingNumber` supplies enough for any input. -/
def parseValue : Nat → List Char → Except String (Value × List Char)
  | 0, _ => .error errUnexpectedEnd
  | fuel + 1, cs =>
    match skipWS cs with
    | [] => .error errUnexpectedEnd
    | c :: rest =>
      if c == '{' then parseMembers fuel [] true rest
      else if c == '[' then parseElems fuel [] true rest
      else if c == '"' then
        match parseStringBody (rest.length + 1) [] rest with
        | .error e => .error e
        | .ok (s, r) => .ok (.str s, r)
      else if c == 't' then
        match expectLit ['r', 'u', 'e'] rest with
        | .error e => .error e
        | .ok r => .ok (.bool true, r)
      else if c == 'f' then
        match expectLit ['a', 'l', 's', 'e'] rest with
        | .error e => .error e
        | .ok r => .ok (.bool false, r)
      else if c == 'n' then
        match expectLit ['u', 'l', 'l'] rest with
        | .error e => .error e
        | .ok r => .ok (.null, r)
      else if c == '-' || c.isDigit then
        match scanNumber (c :: rest) with
        | .error e => .error e
        | .ok (tok, r) => .ok (.num (String.mk tok), r)
      else .error errInvalidChar

/-- Members of an object after its `{` (or after a `,`): a `"`-delimited key,
`:`, a value, then `,` to continue or `}` to finish; `first` allows the empty
object `\x7b\x7d` but forbids a trailing comma. -/
def parseMembers : Nat → List (String × Value) → Bool → List Char →
    Except String (Value × List Char)
  | 0, _, _, _ => .error errUnexpectedEnd
  | fuel + 1, acc, first, cs =>
    match skipWS cs with
    | [] => .error errUnexpectedEnd
    | c :: rest =>
      if c == '}' && first then .ok (.obj acc, rest)
      else if c == '"' then
        match parseStringBody (rest.length + 1) [] rest with
        | .error e => .error e
        | .ok (key, r1) =>
          match skipWS r1 with
          | [] => .error errUnexpectedEnd
          | d :: r2 =>
            if d == ':' then
              match parseValue fuel r2 with
              | .error e => .error e
              | .ok (v, r3) =>
                match skipWS r3 with
                | [] => .error errUnexpectedEnd
                | d2 :: r4 =>
                  if d2 == ',' then parseMembers fuel (objInsert acc key v) false r4
                  else if d2 == '}' then .ok (.obj (objInsert acc key v), r4)
                  else .error errInvalidChar
            else .error errInvalidChar
      else .error errInvalidChar

/-- Elements of an array after its `[` (or after a `,`): a value, then `,` to
continue or `]` to finish; `first` allows the empty array but forbids a
trailing comma.  `acc` holds the elements parsed so far, reversed. -/
def parseElems : Nat → List Value → Bool → List Char →
    Except String (Value × List Char)
  | 0, _, _, _ => .error errUnexpectedEnd
  | fuel + 1, acc, first, cs =>
    match skipWS cs with
    | [] => .error errUnexpectedEnd
    | c :: rest =>
      if c == ']' && first then .ok (.arr acc.reverse, rest)
      else
        match parseValue fuel (c :: rest) with
        | .error e => .error e
        | .ok (v, r1) =>
          match skipWS r1 with
          | [] => .error errUnexpectedEnd
          | d :: r2 =>
            if d == ',' then parseElems fuel (v :: acc) false r2
            else if d == ']' then .ok (.arr (v :: acc).reverse, r2)
            else .error errInvalidChar

end

/-- A top-level object or array is complete at its closing bracket, so
`Decoder.Decode` never looks past it; primitives need a following byte. -/
def selfDelimited : Value → Bool
  | .arr _ => true
  | .obj _ => true
  | _ => false

/-- Model of `decodeJSONUsingNumber` (`jsonLoader.go`): run
`json.Decoder.Decode` with `UseNumber()` on the stream and return the decoded
document or the error.  An empty (or all-whitespace) stream is `io.EOF`; one
value is parsed; after a top-level object or array the remaining bytes are
never examined; after a top-level primitive the next byte must be whitespace
or end of input. -/
def decodeJSONUsingNumber (cs : List Char) : Except String Value :=
  match skipWS cs with
  | [] => .error errEOF
  | c :: rest =>
    match parseValue (2 * cs.length + 4) (c :: rest) with
    | .error e => .error e
    | .ok (v, r) =>
      if selfDelimited v then .ok v
      else
        match r with
        | [] => .ok v
        | d :: _ => if isWS d then .ok v else .error errAfterTop

/-- Modelled from the spec: the native in-process value graph the Native-value
strategy accepts (`interface{}` in `jsonLoader.go`): "any in-process
structured value acceptable to the serializer (maps, ordered sequences,
primitives, and structured records)".  `unsupported` stands for the values
the spec calls non-representable in JSON (a function, a channel, a cyclic
structure), carrying the type name the serializer reports. -/
inductive GoValue where
  | nil : GoValue
  | bool : Bool → GoValue
  | int : Int → GoValue
  | str : String → GoValue
  | arr : List GoValue → GoValue
  | obj : List (String × GoValue) → GoValue
  | unsupported : String → GoValue

/-- One hexadecimal digit, lower case, as `encoding/json` emits in `\u00XX`. -/
def toHexDigit (n : Nat) : Char :=
  if n < 10 then Char.ofNat ('0'.toNat + n) else Char.ofNat ('a'.toNat + n - 10)

/-- Escape one character of a serialized string: `encoding/json` escapes the
quote, the backslash, control characters, and the HTML-sensitive `<`, `>`,
`&`. -/
def escapeChar (c : Char) : List Char :=
  if c == '"' then ['\\', '"']
  else if c == '\\' then ['\\', '\\']
  else if c == '\n' then ['\\', 'n']
  else if c == '\r' then ['\\', 'r']
  else if c == '\t' then ['\\', 't']
  else if c.toNat < 0x20 || c == '<' || c == '>' || c == '&' then
    ['\\', 'u', '0', '0', toHexDigit (c.toNat / 16), toHexDigit (c.toNat % 16)]
  else [c]

/-- Serialize a string with quotes and escapes. -/
def quoteString (s : String) : List Char :=
  '"' :: s.data.foldr (fun c acc => escapeChar c ++ acc) ['"']

/-- Comma-join serialized fragments. -/
def joinComma : List (List Char) → List Char
  | [] => []
  | [x] => x
  | x :: y :: xs => x ++ ',' :: joinComma (y :: xs)

mutual

/-- Modelled from the spec: `encoding/json.Marshal`, which is outside `src/`
(`jsonGoLoader.LoadJSON` only calls it).  It converts the native value to
JSON-compliant bytes, or fails with a serialization error when the value
holds something non-representable in JSON; the error is surfaced as Go
prints it, `json: unsupported type: <type>`. -/
def Marshal : GoValue → Except String (List Char)
  | .nil => .ok ("null".data)
  | .bool true => .ok ("true".data)
  | .bool false => .ok ("false".data)
  | .int n => .ok (toString n).data
  | .str s => .ok (quoteString s)
  | .arr xs =>
    match MarshalElems xs with
    | .error e => .error e
    | .ok parts => .ok ('[' :: joinComma parts ++ [']'])
  | .obj fs =>
    match MarshalFields fs with
    | .error e => .error e
    | .ok parts => .ok ('{' :: joinComma parts ++ ['}'])
  | .unsupported tag => .error ("json: unsupported type: " ++ tag)

/-- Serialize array elements in order. -/
def MarshalElems : List GoValue → Except String (List (List Char))
  | [] => .ok []
  | x :: xs =>
    match Marshal x with
    | .error e => .error e
    | .ok h =>
      match MarshalElems xs with
      | .error e => .error e
      | .ok t => .ok (h :: t)

/-- Serialize object members as quoted key, colon, value. -/
def MarshalFields : List (String × GoValue) → Except String (List (List Char))
  | [] => .ok []
  | (k, x) :: xs =>
    match Marshal x with
    | .error e => .error e
    | .ok h =>
      match MarshalFields xs with
      | .error e => .error e
      | .ok t => .ok ((quoteString k ++ ':' :: h) :: t)

end

/-- Modelled from the spec: `gojsonreference.JsonReference`, the URI-like
reference identity produced by the external `gojsonreference` package (not
under `src/`); the spec fixes only that it is computed from a string and that
`"#"` denotes "this document, no external location". -/
structure JsonReference where
  ref : String
deriving DecidableEq

/-- Modelled from the spec: `gojsonreference.NewJsonReference`, outside
`src/`.  It parses the given string as a URI-like reference; the spec
guarantees that the fragment-only string `"#"` parses successfully to the
same-document identifier and leaves location-string parsing to the external
package (its failure policy is an explicit open question there), so the model
records the string and succeeds. -/
def NewJsonReference (s : String) : Except String JsonReference := .ok ⟨s⟩

/-- The originally-supplied source value, Go's `interface{}` as returned by
`JsonSource()`: a string, a byte buffer, a native value, or an
already-decoded value. -/
inductive Src where
  | str : String → Src
  | bytes : List Char → Src
  | goValue : GoValue → Src
  | value : Value → Src

/-- One loader: an immutable source bound to one strategy.  Constructor names
follow the Go types.  `jsonIOLoader` holds its `bytes.Buffer` contents —
the bytes captured by the tee (`io.TeeReader` / `io.MultiWriter`) and not yet
consumed by a decode. -/
inductive Loader where
  | jsonReferenceLoader : String → Loader
  | jsonStringLoader : String → Loader
  | jsonBytesLoader : List Char → Loader
  | jsonGoLoader : GoValue → Loader
  | jsonIOLoader : List Char → Loader
  | jsonRawLoader : Value → Loader

/-- The two factory variants of `jsonLoader.go`. -/
inductive JSONLoaderFactory where
  | defaultFactory : JSONLoaderFactory
  | fileSystemFactory : JSONLoaderFactory
deriving DecidableEq

/-- `DefaultJSONLoaderFactory.New`: builds a `jsonReferenceLoader` for the
given source. -/
def DefaultJSONLoaderFactory.New (source : String) : Loader :=
  .jsonReferenceLoader source

/-- `FileSystemJSONLoaderFactory.New`: builds a `jsonReferenceLoader` for the
given source. -/
def FileSystemJSONLoaderFactory.New (source : String) : Loader :=
  .jsonReferenceLoader source

/-- Dispatch `New` through the factory interface value. -/
def JSONLoaderFactory.New : JSONLoaderFactory → String → Loader
  | .defaultFactory, s => DefaultJSONLoaderFactory.New s
  | .fileSystemFactory, s => FileSystemJSONLoaderFactory.New s

/-- `JsonSource()` of each strategy.  The stream strategy returns
`l.buf.String()` — the current buffer contents as a string — not the
original reader/writer handle. -/
def Loader.JsonSource : Loader → Src
  | .jsonReferenceLoader s => .str s
  | .jsonStringLoader s => .str s
  | .jsonBytesLoader b => .bytes b
  | .jsonGoLoader g => .goValue g
  | .jsonIOLoader buf => .str (String.mk buf)
  | .jsonRawLoader v => .value v

/-- Package a decode outcome as Go's `(interface{}, error)` pair: on error
the document is the `nil` interface (`Value.null`). -/
def goResult : Except String Value → Value × Option String
  | .error e => (.null, some e)
  | .ok v => (v, none)

/-- `jsonGoLoader.LoadJSON`: marshal the native source to compliant JSON
bytes first; a serialization failure is returned as-is, otherwise the bytes
are decoded with `decodeJSONUsingNumber`. -/
def jsonGoLoadResult (g : GoValue) : Value × Option String :=
  match Marshal g with
  | .error e => (.null, some e)
  | .ok bs => goResult (decodeJSONUsingNumber bs)

/-- Modelled from Go's `encoding/json` and `bytes` packages (both outside
`src/`): what `Decode` leaves in a `bytes.Buffer` it reads from.  The
decoder never scans the reader directly; its `refill` copies bytes out of
the buffer into a decoder-internal window, and reading from a `bytes.Buffer`
removes the bytes read.  The first `refill` happens before any scanning and
reads exactly `min(512, len)` bytes (the window starts empty with capacity
512); further refills happen only if the scanner exhausts the window without
finishing.  So a capture of at most 512 characters is drained entirely,
whatever the scan outcome, and a longer capture keeps everything past the
first 512 characters whenever the scanner stops inside them — the value
complete, or the scan failed there.  A value whose scan needs bytes past the
first chunk triggers further reads of decoder-internal sizes; no statement
below observes the buffer in that case (every capture a statement observes
after a decode is at most 512 characters). -/
def ioRemainder (buf : List Char) : List Char := buf.drop 512

/-- `LoadJSON()` of each strategy, with the loader state after the call.
Only the stream strategy has post-call state: `jsonIOLoader.LoadJSON`
passes its `bytes.Buffer` itself to `decodeJSONUsingNumber`, whose reads
consume the buffer as described at `ioRemainder`.  All other strategies
read from a fresh reader over an unchanged source. -/
def Loader.LoadJSON : Loader → (Value × Option String) × Loader
  | .jsonReferenceLoader s => ((.null, none), .jsonReferenceLoader s)
  | .jsonStringLoader s => (goResult (decodeJSONUsingNumber s.data), .jsonStringLoader s)
  | .jsonBytesLoader b => (goResult (decodeJSONUsingNumber b), .jsonBytesLoader b)
  | .jsonGoLoader g => (jsonGoLoadResult g, .jsonGoLoader g)
  | .jsonIOLoader buf => (goResult (decodeJSONUsingNumber buf), .jsonIOLoader (ioRemainder buf))
  | .jsonRawLoader v => ((v, none), .jsonRawLoader v)

/-- `JsonReference()` of each strategy: the reference loader parses its
source string; every other strategy parses the constant `"#"`. -/
def Loader.JsonReference : Loader → Except String JsonReference
  | .jsonReferenceLoader s => NewJsonReference s
  | .jsonStringLoader _ => NewJsonReference "#"
  | .jsonBytesLoader _ => NewJsonReference "#"
  | .jsonGoLoader _ => NewJsonReference "#"
  | .jsonIOLoader _ => NewJsonReference "#"
  | .jsonRawLoader _ => NewJsonReference "#"

/-- `LoaderFactory()` of each strategy: the reference loader returns the
file-system factory, every other strategy the default factory. -/
def Loader.LoaderFactory : Loader → JSONLoaderFactory
  | .jsonReferenceLoader _ => .fileSystemFactory
  | .jsonStringLoader _ => .defaultFactory
  | .jsonBytesLoader _ => .defaultFactory
  | .jsonGoLoader _ => .defaultFactory
  | .jsonIOLoader _ => .defaultFactory
  | .jsonRawLoader _ => .defaultFactory

/-- `NewReferenceLoader`. -/
def NewReferenceLoader (source : String) : Loader := .jsonReferenceLoader source

/-- `NewStringLoader`. -/
def NewStringLoader (source : String) : Loader := .jsonStringLoader source

/-- `NewBytesLoader`. -/
def NewBytesLoader (source : List Char) : Loader := .jsonBytesLoader source

/-- `NewGoLoader`. -/
def NewGoLoader (source : GoValue) : Loader := .jsonGoLoader source

/-- `NewRawLoader`. -/
def NewRawLoader (source : Value) : Loader := .jsonRawLoader source

/-- `NewWriterLoader`: a fresh stream loader with an empty capture buffer
(the paired `io.MultiWriter` is modelled by `writeThrough`). -/
def NewWriterLoader : Loader := .jsonIOLoader []

/-- `NewReaderLoader`: a fresh stream loader with an empty capture buffer
(the paired `io.TeeReader` is modelled by `writeThrough`). -/
def NewReaderLoader : Loader := .jsonIOLoader []

/-- Bytes passing through the duplicating writer (or tee reader) of a stream
loader are appended to its capture buffer; other strategies have no stream. -/
def writeThrough : Loader → List Char → Loader
  | .jsonIOLoader buf, bs => .jsonIOLoader (buf ++ bs)
  | l, _ => l

/-- The canonical value returned by a second `LoadJSON()` equals the one
returned by the first (the Go pair, document and error, compared after the
first call's effect on the loader's state). -/
def decodeTwiceAgrees (l : Loader) : Prop :=
  (Loader.LoadJSON (Loader.LoadJSON l).2).1 = (Loader.LoadJSON l).1

/-- `JsonSource()` observed after a `LoadJSON()` call equals `JsonSource()`
observed before it. -/
def sourceStableUnderDecode (l : Loader) : Prop :=
  Loader.JsonSource (Loader.LoadJSON l).2 = Loader.JsonSource l

/-- The spec's numeric-fidelity payload, `{"n": <30 digits>}`. -/
def bigNumPayload : String := "\x7b\"n\": 123456789012345678901234567890\x7d"

/-- The decoded form of `bigNumPayload`: the literal digits, untouched. -/
def bigNumValue : Value := .obj [("n", .num ("123456789012345678901234567890"))]

/-- The payload `{"a":1}` used by several spec examples. -/
def objAPayload : String := "\x7b\"a\":1\x7d"

/-- The decoded form of `objAPayload`. -/
def objAValue : Value := .obj [("a", .num ("1"))]

/-! Supporting lemmas: the characters of a scanned numeric literal are
exactly the characters consumed from the input, so `UseNumber()` keeps the
token textually intact. -/

theorem takeDigits_append (cs : List Char) :
    (takeDigits cs).1 ++ (takeDigits cs).2 = cs := by
  induction cs with
  | nil => rfl
  | cons c cs ih =>
    by_cases h : c.isDigit
    · simp [takeDigits, h, ih]
    · simp [takeDigits, h]

theorem scanInt_append {cs tok rest : List Char}
    (h : scanInt cs = .ok (tok, rest)) : tok ++ rest = cs := by
  cases cs with
  | nil => simp [scanInt] at h
  | cons c cs' =>
    rw [scanInt] at h
    by_cases h0 : c == '0'
    · rw [if_pos h0] at h
      simp only [Except.ok.injEq, Prod.mk.injEq] at h
      obtain ⟨h1, h2⟩ := h
      subst h1
      subst h2
      rfl
    · rw [if_neg h0] at h
      by_cases hd : c.isDigit
      · rw [if_pos hd] at h
        simp only [Except.ok.injEq, Prod.mk.injEq] at h
        obtain ⟨h1, h2⟩ := h
        subst h1
        subst h2
        simp [takeDigits_append]
      · rw [if_neg hd] at h
        simp at h

theorem scanFrac_append {cs tok rest : List Char}
    (h : scanFrac cs = .ok (tok, rest)) : tok ++ rest = cs := by
  cases cs with
  | nil =>
    simp only [scanFrac, Except.ok.injEq, Prod.mk.injEq] at h
    obtain ⟨h1, h2⟩ := h
    subst h1
    subst h2
    rfl
  | cons c cs' =>
    rw [scanFrac.eq_def] at h
    simp only [] at h
    by_cases hdot : c == '.'
    · rw [if_pos hdot] at h
      cases cs' with
      | nil => simp at h
      | cons d r2 =>
        simp only [] at h
        by_cases hd : d.isDigit
        · rw [if_pos hd] at h
          simp only [Except.ok.injEq, Prod.mk.injEq] at h
          obtain ⟨h1, h2⟩ := h
          subst h1
          subst h2
          simp [takeDigits_append]
        · rw [if_neg hd] at h
          simp at h
    · rw [if_neg hdot] at h
      simp only [Except.ok.injEq, Prod.mk.injEq] at h
      obtain ⟨h1, h2⟩ := h
      subst h1
      subst h2
      rfl

theorem scanExp_append {cs tok rest : List Char}
    (h : scanExp cs = .ok (tok, rest)) : tok ++ rest = cs := by
  cases cs with
  | nil =>
    simp only [scanExp, Except.ok.injEq, Prod.mk.injEq] at h
    obtain ⟨h1, h2⟩ := h
    subst h1
    subst h2
    rfl
  | cons c cs' =>
    rw [scanExp.eq_def] at h
    simp only [] at h
    by_cases he : c == 'e' || c == 'E'
    · rw [if_pos he] at h
      cases cs' with
      | nil => simp at h
      | cons s r2 =>
        simp only [] at h
        by_cases hs : s == '+' || s == '-'
        · rw [if_pos hs] at h
          cases r2 with
          | nil => simp at h
          | cons d r3 =>
            simp only [] at h
            by_cases hd : d.isDigit
            · rw [if_pos hd] at h
              simp only [Except.ok.injEq, Prod.mk.injEq] at h
              obtain ⟨h1, h2⟩ := h
              subst h1
              subst h2
              simp [takeDigits_append]
            · rw [if_neg hd] at h
              simp at h
        · rw [if_neg hs] at h
          by_cases hsd : s.isDigit
          · rw [if_pos hsd] at h
            simp only [Except.ok.injEq, Prod.mk.injEq] at h
            obtain ⟨h1, h2⟩ := h
            subst h1
            subst h2
            simp [takeDigits_append]
          · rw [if_neg hsd] at h
            simp at h
    · rw [if_neg he] at h
      simp only [Except.ok.injEq, Prod.mk.injEq] at h
      obtain ⟨h1, h2⟩ := h
      subst h1
      subst h2
      rfl

theorem scanNumBody_append {cs tok rest : List Char}
    (h : scanNumBody cs = .ok (tok, rest)) : tok ++ rest = cs := by
  rw [scanNumBody] at h
  cases hInt : scanInt cs with
  | error e => simp [hInt] at h
  | ok p =>
    obtain ⟨ip, cs2⟩ := p
    simp only [hInt] at h
    cases hFrac : scanFrac cs2 with
    | error e => simp [hFrac] at h
    | ok q =>
      obtain ⟨fp, cs3⟩ := q
      simp only [hFrac] at h
      cases hExp : scanExp cs3 with
      | error e => simp [hExp] at h
      | ok r =>
        obtain ⟨ep, cs4⟩ := r
        simp only [hExp, Except.ok.injEq, Prod.mk.injEq] at h
        obtain ⟨h1, h2⟩ := h
        subst h1
        subst h2
        have e1 := scanInt_append hInt
        have e2 := scanFrac_append hFrac
        have e3 := scanExp_append hExp
        subst e1
        subst e2
        subst e3
        simp [List.append_assoc]

theorem scanNumber_append {cs tok rest : List Char}
    (h : scanNumber cs = .ok (tok, rest)) : tok ++ rest = cs := by
  cases cs with
  | nil => simp [scanNumber] at h
  | cons c cs' =>
    rw [scanNumber] at h
    by_cases hm : c == '-'
    · rw [if_pos hm] at h
      cases hb : scanNumBody cs' with
      | error e => simp [hb] at h
      | ok p =>
        obtain ⟨tok', r⟩ := p
        simp only [hb, Except.ok.injEq, Prod.mk.injEq] at h
        obtain ⟨h1, h2⟩ := h
        subst h1
        subst h2
        have := scanNumBody_append hb
        simpa using this
    · rw [if_neg hm] at h
      exact scanNumBody_append h

/-- C1: decoding a JSON text containing a numeric literal through any
strategy that uses the value decoder (Text, Binary, Streaming, Native-value)
yields the number with its original textual digits exactly — here on the
payload `{"n": 123456789012345678901234567890}` — and in general every
numeric token the scanner accepts is stored verbatim: the stored characters
followed by the unconsumed rest are precisely the input. -/
theorem C1_number_literal_fidelity :
    decodeJSONUsingNumber bigNumPayload.data = .ok bigNumValue ∧
    (Loader.LoadJSON (NewStringLoader bigNumPayload)).1 = (bigNumValue, none) ∧
    (Loader.LoadJSON (NewBytesLoader bigNumPayload.data)).1 = (bigNumValue, none) ∧
    (Loader.LoadJSON (writeThrough NewWriterLoader bigNumPayload.data)).1
      = (bigNumValue, none) ∧
    (Loader.LoadJSON (NewGoLoader
        (.obj [("n", .int 123456789012345678901234567890)]))).1
      = (bigNumValue, none) ∧
    (∀ cs tok rest : List Char, scanNumber cs = .ok (tok, rest) → tok ++ rest = cs) :=
  ⟨rfl, rfl, rfl, rfl, rfl, fun _ _ _ h => scanNumber_append h⟩

/-- Witness for C1 at a concrete input: the scanner keeps the token `42`
verbatim. -/
theorem C1_number_literal_fidelity_witness :
    (['4', '2'] : List Char) ++ ([] : List Char) = ['4', '2'] :=
  C1_number_literal_fidelity.2.2.2.2.2 ['4', '2'] ['4', '2'] [] rfl

/-- C2 counterexample: for the streaming loader with `{"a":1}` captured, the
first `LoadJSON()` succeeds but consumes the 7-character capture (it fits in
the decoder's first 512-byte read), so the second returns `io.EOF` —
`decodeTwiceAgrees` fails, refuting the claim's "in particular" part for
streaming loaders after their bytes have been captured. -/
theorem C2_streaming_counterexample :
    (Loader.LoadJSON (writeThrough NewWriterLoader objAPayload.data)).1
      = (objAValue, none) ∧
    (Loader.LoadJSON
        (Loader.LoadJSON (writeThrough NewWriterLoader objAPayload.data)).2).1
      = (.null, some errEOF) ∧
    ¬ decodeTwiceAgrees (writeThrough NewWriterLoader objAPayload.data) := by
  refine ⟨rfl, rfl, fun hcontra => ?_⟩
  have hc : ((Value.null, some errEOF) : Value × Option String)
      = ((objAValue, none) : Value × Option String) := hcontra
  simp [Prod.ext_iff] at hc

/-- C2 (amended): for every loader of the Text, Binary, Native-value, or
Pre-decoded strategy, `decode()` twice yields structurally equal values (it
is a pure function of the unchanged source).  A streaming loader whose bytes
have been captured is excluded: its first `decode()` consumes from the
capture buffer, so a second `decode()` need not return the first value — on
the 7-character capture above it returns `io.EOF` instead. -/
theorem C2_decode_pure_amended :
    (∀ s : String, decodeTwiceAgrees (NewStringLoader s)) ∧
    (∀ b : List Char, decodeTwiceAgrees (NewBytesLoader b)) ∧
    (∀ g : GoValue, decodeTwiceAgrees (NewGoLoader g)) ∧
    (∀ v : Value, decodeTwiceAgrees (NewRawLoader v)) :=
  ⟨fun _ => rfl, fun _ => rfl, fun _ => rfl, fun _ => rfl⟩

/-- C3 counterexample: for a streaming loader with `{"a":1}` captured,
`JsonSource()` before a decode is the captured text, but `LoadJSON()`
consumes the 7-character capture (it fits in the decoder's first 512-byte
read) and `JsonSource()` afterwards is the empty string — so `source()`
after a decode does not reflect the bytes that passed through the tee,
refuting the claim's streaming part. -/
theorem C3_streaming_counterexample :
    Loader.JsonSource (writeThrough NewWriterLoader objAPayload.data)
      = .str objAPayload ∧
    Loader.JsonSource
        (Loader.LoadJSON (writeThrough NewWriterLoader objAPayload.data)).2
      = .str "" ∧
    ¬ sourceStableUnderDecode (writeThrough NewWriterLoader objAPayload.data) := by
  refine ⟨rfl, rfl, fun hcontra => ?_⟩
  have hc : (Src.str "" : Src) = .str objAPayload := hcontra
  simp only [Src.str.injEq] at hc
  exact absurd hc (by decide)

/-- C3 (amended): for every loader of the location-based, Text, Binary,
Native-value, or Pre-decoded strategy, `source()` returns the
originally-supplied source value unchanged and a `decode()` call leaves it
unchanged.  For a streaming loader, `source()` is the captured-but-not-yet-
consumed text — after the tee has written bytes and before any decode it is
exactly those bytes — and a `decode()` consumes from the capture buffer, so
`source()` afterwards need not reflect all bytes that passed through the tee
(the 7-character capture above leaves it empty). -/
theorem C3_source_frame_amended :
    (∀ s, Loader.JsonSource (NewReferenceLoader s) = .str s
      ∧ sourceStableUnderDecode (NewReferenceLoader s)) ∧
    (∀ s, Loader.JsonSource (NewStringLoader s) = .str s
      ∧ sourceStableUnderDecode (NewStringLoader s)) ∧
    (∀ b, Loader.JsonSource (NewBytesLoader b) = .bytes b
      ∧ sourceStableUnderDecode (NewBytesLoader b)) ∧
    (∀ g, Loader.JsonSource (NewGoLoader g) = .goValue g
      ∧ sourceStableUnderDecode (NewGoLoader g)) ∧
    (∀ v, Loader.JsonSource (NewRawLoader v) = .value v
      ∧ sourceStableUnderDecode (NewRawLoader v)) ∧
    (∀ bs, Loader.JsonSource (writeThrough NewWriterLoader bs)
      = .str (String.mk bs)) :=
  ⟨fun _ => ⟨rfl, rfl⟩, fun _ => ⟨rfl, rfl⟩, fun _ => ⟨rfl, rfl⟩,
   fun _ => ⟨rfl, rfl⟩, fun _ => ⟨rfl, rfl⟩, fun _ => rfl⟩

/-- C4: `LoadJSON()` on a Pre-decoded (raw) loader returns exactly the value
passed at construction, with no error and no change to the loader. -/
theorem C4_raw_identity (v : Value) :
    Loader.LoadJSON (NewRawLoader v) = ((v, none), NewRawLoader v) := rfl

/-- Witness for C4 at a concrete value. -/
theorem C4_raw_identity_witness :
    Loader.LoadJSON (NewRawLoader (.bool true))
      = (((.bool true : Value), none), NewRawLoader (.bool true)) :=
  C4_raw_identity (.bool true)

/-- C5: for every loader of the Text, Binary, Native-value, Streaming, or
Pre-decoded strategy, `JsonReference()` succeeds with the same-document
fragment-only identifier `#`, regardless of the source content. -/
theorem C5_reference_identity_defaults :
    (∀ s, Loader.JsonReference (NewStringLoader s) = .ok ⟨"#"⟩) ∧
    (∀ b, Loader.JsonReference (NewBytesLoader b) = .ok ⟨"#"⟩) ∧
    (∀ g, Loader.JsonReference (NewGoLoader g) = .ok ⟨"#"⟩) ∧
    (∀ buf, Loader.JsonReference (.jsonIOLoader buf) = .ok ⟨"#"⟩) ∧
    (∀ v, Loader.JsonReference (NewRawLoader v) = .ok ⟨"#"⟩) :=
  ⟨fun _ => rfl, fun _ => rfl, fun _ => rfl, fun _ => rfl, fun _ => rfl⟩

/-- C6: when serialization of the native source fails, `LoadJSON()` on the
Native-value loader surfaces that serialization error with a `nil` document
— no decode output is produced. -/
theorem C6_serialization_error (g : GoValue) (e : String)
    (h : Marshal g = .error e) :
    (Loader.LoadJSON (NewGoLoader g)).1 = (.null, some e) := by
  show jsonGoLoadResult g = (.null, some e)
  rw [jsonGoLoadResult, h]

/-- Witness for C6: a native value holding a function is not serializable and
its error is surfaced unchanged. -/
theorem C6_serialization_error_witness :
    (Loader.LoadJSON (NewGoLoader (.unsupported "func()"))).1
      = (.null, some ("json: unsupported type: func()")) :=
  C6_serialization_error (.unsupported "func()")
    ("json: unsupported type: func()") rfl

/-- C7: for every byte sequence written through the duplicating writer of a
fresh Streaming loader, `decode()` yields the same Go result as decoding the
same bytes directly through a Binary-strategy loader. -/
theorem C7_stream_matches_binary (bs : List Char) :
    (Loader.LoadJSON (writeThrough NewWriterLoader bs)).1
      = (Loader.LoadJSON (NewBytesLoader bs)).1 := rfl

/-- Witness for C7 at the spec's example bytes `{"a":1}`. -/
theorem C7_stream_matches_binary_witness :
    (Loader.LoadJSON (writeThrough NewWriterLoader objAPayload.data)).1
      = (Loader.LoadJSON (NewBytesLoader objAPayload.data)).1 :=
  C7_stream_matches_binary objAPayload.data

/-- C8: the default and filesystem factory variants construct the identical
location-based loader for any source string, so every loader operation
agrees between the two. -/
theorem C8_factories_agree (s : String) :
    DefaultJSONLoaderFactory.New s = FileSystemJSONLoaderFactory.New s ∧
    Loader.JsonSource (DefaultJSONLoaderFactory.New s)
      = Loader.JsonSource (FileSystemJSONLoaderFactory.New s) ∧
    Loader.LoadJSON (DefaultJSONLoaderFactory.New s)
      = Loader.LoadJSON (FileSystemJSONLoaderFactory.New s) ∧
    Loader.JsonReference (DefaultJSONLoaderFactory.New s)
      = Loader.JsonReference (FileSystemJSONLoaderFactory.New s) ∧
    Loader.LoaderFactory (DefaultJSONLoaderFactory.New s)
      = Loader.LoaderFactory (FileSystemJSONLoaderFactory.New s) :=
  ⟨rfl, rfl, rfl, rfl, rfl⟩

/-- Witness for C8 at a concrete source string. -/
theorem C8_factories_agree_witness :
    DefaultJSONLoaderFactory.New "./schema.json"
      = FileSystemJSONLoaderFactory.New "./schema.json" :=
  (C8_factories_agree "./schema.json").1

/-- C9: `LoadJSON()` on a location-based loader returns the `nil` document
and the `nil` error for every source string (`Value.null` models Go's `nil`
interface), and leaves the loader unchanged. -/
theorem C9_reference_load_nil_nil (s : String) :
    Loader.LoadJSON (NewReferenceLoader s)
      = ((.null, none), NewReferenceLoader s) := rfl

/-- Witness for C9 at a concrete source string. -/
theorem C9_reference_load_nil_nil_witness :
    Loader.LoadJSON (NewReferenceLoader "./schema.json")
      = (((.null : Value), none), NewReferenceLoader "./schema.json") :=
  C9_reference_load_nil_nil "./schema.json"

/-- C10: a complete JSON object followed by arbitrary trailing bytes —
`{"a":1}garbage` — decodes successfully through the Text and Binary
strategies to the leading value, the trailing bytes silently ignored. -/
theorem C10_trailing_bytes_ignored :
    decodeJSONUsingNumber ("\x7b\"a\":1\x7dgarbage".data) = .ok objAValue ∧
    (Loader.LoadJSON (NewStringLoader ("\x7b\"a\":1\x7dgarbage"))).1
      = (objAValue, none) ∧
    (Loader.LoadJSON (NewBytesLoader ("\x7b\"a\":1\x7dgarbage".data))).1
      = (objAValue, none) :=
  ⟨rfl, rfl, rfl⟩

end Gojsonschema
